import Mathlib

/-!
The protected-file write probe, `src/ebpf/redact_vfs_write.bpf.c`.

A shallow embedding of the eBPF program attached to `vfs_write`:

* `make_key` mixes a device number and an inode number into one 64-bit key;
* `kprobe__vfs_write` reads the identity of the written file, looks the key up
  in the hash map `log_map` and calls `bpf_trace_printk` on a hit.

Machine integers are natural numbers reduced modulo `2 ^ w` at every place
where C fixes a width.  The kernel objects the probe traverses and the BPF
helpers it calls are not part of the repository; they appear as the explicit
environment `Kernel` and as small state transformers on `BpfState`.
-/

namespace RedactVfsWrite

/-! ## Machine integers -/

/-- Value of a C `dev_t` (`__u32` in the kernel). -/
def u32 (x : Nat) : Nat := x % 2 ^ 32

/-- Value of a C `unsigned long long` (also of a pointer and of `unsigned long`). -/
def u64 (x : Nat) : Nat := x % 2 ^ 64

/-! ## The map declaration (lines 5-10) -/

/-- The `max_entries` attribute of `log_map`. -/
def max_entries : Nat := 128

/-- Contents of a `BPF_MAP_TYPE_HASH` map with `unsigned long long` keys and
`__u8` values: the list of its (key, value) entries. -/
abbrev HashMap := List (Nat × Nat)

/-- Keys stored in the map. -/
def HashMap.keys (m : HashMap) : List Nat := m.map Prod.fst

/-! ## `make_key` (lines 12-17) -/

/-- The expression `((unsigned long long)dev << 32) ^ ino` with `dev : dev_t` and
`ino : unsigned long long`; the shift is done in 64 bits. -/
def make_key (dev ino : Nat) : Nat :=
  u64 (u64 (u32 dev) <<< 32) ^^^ u64 ino

/-! ## Environment of the probe -/

/-- Register file handed to a kprobe; only the first-argument register is read. -/
structure pt_regs where
  /-- The register holding the first argument of the probed function. -/
  parm1 : Nat

/-- The macro `PT_REGS_PARM1(ctx)`: the 64-bit content of that register. -/
def PT_REGS_PARM1 (ctx : pt_regs) : Nat := u64 ctx.parm1

/-- Kernel memory as seen through `bpf_probe_read_kernel`: for each member
that the probe dereferences, the value stored at a given object address, or
`none` when the read faults. -/
structure Kernel where
  /-- Member `f_inode` of the `struct file` at an address. -/
  f_inode : Nat → Option Nat
  /-- Member `i_sb` of the `struct inode` at an address. -/
  i_sb : Nat → Option Nat
  /-- Member `s_dev` of the `struct super_block` at an address. -/
  s_dev : Nat → Option Nat
  /-- Member `i_ino` of the `struct inode` at an address. -/
  i_ino : Nat → Option Nat

/-- One step of `BPF_CORE_READ`: read a member of width `w` bits through
`bpf_probe_read_kernel`.  The helper zero-fills the destination when the read
faults, and the macro never inspects the error code, so a failed read yields 0. -/
def bpf_core_read (member : Nat → Option Nat) (w : Nat) (src : Nat) : Nat :=
  match member src with
  | some v => v % 2 ^ w
  | none => 0

/-- A call of a BPF helper made by the program. -/
inductive HelperCall where
  /-- Call `bpf_map_lookup_elem(&log_map, &key)`. -/
  | map_lookup_elem (key : Nat)
  /-- Call `bpf_trace_printk(fmt, fmt_size, args...)`: one record in the trace pipe. -/
  | trace_printk (fmt : List Nat) (fmt_size : Nat) (args : List Nat)
  deriving DecidableEq

/-- State shared between the program and the BPF runtime: the contents of
`log_map` and the helper calls made so far (oldest first). -/
structure BpfState where
  /-- Entries of `log_map`. -/
  log_map : HashMap
  /-- Helper calls made so far. -/
  calls : List HelperCall
  deriving DecidableEq

/-- Looks `key` up in a map: the value of the first entry with that key;
`none` stands for the NULL pointer the helper returns on a miss. -/
def HashMap.lookup (m : HashMap) (key : Nat) : Option Nat :=
  (m.find? fun e => e.1 == key).map Prod.snd

/-- Helper `bpf_map_lookup_elem(&log_map, &key)`: a read of the map; the call is logged. -/
def bpf_map_lookup_elem (s : BpfState) (key : Nat) : Option Nat × BpfState :=
  (s.log_map.lookup key, ⟨s.log_map, s.calls ++ [HelperCall.map_lookup_elem key]⟩)

/-- Helper `bpf_trace_printk(fmt, fmt_size)` called without format arguments. -/
def bpf_trace_printk (s : BpfState) (fmt : List Nat) (fmt_size : Nat) : BpfState :=
  ⟨s.log_map, s.calls ++ [HelperCall.trace_printk fmt fmt_size []]⟩

/-! ## `kprobe__vfs_write` (lines 19-34) -/

/-- The text of the string literal on line 31. -/
def msg_text : String := "eBPF intercept: protected file write\n"

/-- The local array `char msg[] = "eBPF intercept: protected file write\n";` as the array of
its bytes, terminating NUL included. -/
def msg : List Nat := msg_text.toList.map Char.toNat ++ [0]

/-- The value of `sizeof(msg)`. -/
def sizeof_msg : Nat := msg.length

/-- The read `BPF_CORE_READ(file, f_inode)` on the first argument of `vfs_write`. -/
def read_inode (k : Kernel) (ctx : pt_regs) : Nat :=
  bpf_core_read k.f_inode 64 (PT_REGS_PARM1 ctx)

/-- The read `BPF_CORE_READ(inode, i_sb, s_dev)`: the pointer `i_sb` is read first, then
`s_dev` through it. -/
def read_dev (k : Kernel) (ctx : pt_regs) : Nat :=
  bpf_core_read k.s_dev 32 (bpf_core_read k.i_sb 64 (read_inode k ctx))

/-- The read `BPF_CORE_READ(inode, i_ino)`. -/
def read_ino (k : Kernel) (ctx : pt_regs) : Nat :=
  bpf_core_read k.i_ino 64 (read_inode k ctx)

/-- The probe body: returns the `int` result and the state it leaves. -/
def kprobe__vfs_write (k : Kernel) (s : BpfState) (ctx : pt_regs) : Int × BpfState :=
  let file := PT_REGS_PARM1 ctx
  let inode := bpf_core_read k.f_inode 64 file
  let dev := bpf_core_read k.s_dev 32 (bpf_core_read k.i_sb 64 inode)
  let ino := bpf_core_read k.i_ino 64 inode
  let key := make_key dev ino
  match bpf_map_lookup_elem s key with
  | (none, s1) => (0, s1)
  | (some _, s1) =>
    let s2 := bpf_trace_printk s1 msg sizeof_msg
    (0, s2)

/-! ## Observations on a run -/

/-- Whether a helper call is a `bpf_trace_printk`. -/
def HelperCall.isTrace : HelperCall → Bool
  | HelperCall.trace_printk _ _ _ => true
  | HelperCall.map_lookup_elem _ => false

/-- Whether a helper call is a `bpf_map_lookup_elem`. -/
def HelperCall.isLookup : HelperCall → Bool
  | HelperCall.map_lookup_elem _ => true
  | HelperCall.trace_printk _ _ _ => false

/-- Helper calls made by one invocation of the probe: what it appends to the
call log of the state it starts in. -/
def callsOf (k : Kernel) (s : BpfState) (ctx : pt_regs) : List HelperCall :=
  (kprobe__vfs_write k s ctx).2.calls.drop s.calls.length

/-- Trace records emitted by one invocation of the probe. -/
def emitted (k : Kernel) (s : BpfState) (ctx : pt_regs) : List HelperCall :=
  (callsOf k s ctx).filter HelperCall.isTrace

/-- Map lookups performed by one invocation of the probe. -/
def lookups (k : Kernel) (s : BpfState) (ctx : pt_regs) : List HelperCall :=
  (callsOf k s ctx).filter HelperCall.isLookup

/-- The one trace record the program can emit. -/
def record : HelperCall := HelperCall.trace_printk msg sizeof_msg []

/-- The open file at address `file` is backed by the inode with device
number `dev` and inode number `ino`, and every read on the way succeeds. -/
def Kernel.identity (k : Kernel) (file dev ino : Nat) : Prop :=
  ∃ inode sb, k.f_inode file = some inode ∧ inode < 2 ^ 64 ∧
    k.i_sb inode = some sb ∧ sb < 2 ^ 64 ∧
    k.s_dev sb = some dev ∧ k.i_ino inode = some ino

/-- A kernel holding one open file at address `file`, with inode at
`file + 1` and superblock at `file + 2`; every other read faults. -/
def Kernel.single (file dev ino : Nat) : Kernel where
  f_inode := fun a => if a = file then some (file + 1) else none
  i_sb := fun a => if a = file + 1 then some (file + 2) else none
  s_dev := fun a => if a = file + 2 then some dev else none
  i_ino := fun a => if a = file + 1 then some ino else none

/-- A kernel in which every read faults. -/
def Kernel.faulting : Kernel where
  f_inode := fun _ => none
  i_sb := fun _ => none
  s_dev := fun _ => none
  i_ino := fun _ => none

/-- The superblock pointer obtained on the way to `s_dev`. -/
def read_sb (k : Kernel) (ctx : pt_regs) : Nat :=
  bpf_core_read k.i_sb 64 (read_inode k ctx)

/-- The key the probe looks up. -/
def probe_key (k : Kernel) (ctx : pt_regs) : Nat :=
  make_key (read_dev k ctx) (read_ino k ctx)

/-- Some read on the way from the file handle to the device number and the
inode number faults. -/
def IdentityUnavailable (k : Kernel) (ctx : pt_regs) : Prop :=
  k.f_inode (PT_REGS_PARM1 ctx) = none ∨ k.i_sb (read_inode k ctx) = none ∨
    k.s_dev (read_sb k ctx) = none ∨ k.i_ino (read_inode k ctx) = none

/-! ## The registry operations of the controller -/

/-- Failure reported to the caller of a registry mutation. -/
inductive RegistryError where
  /-- The table is full and the key is new. -/
  | CapacityExceeded
  deriving DecidableEq

/-- Modelled from the spec: the update operation on `log_map` is performed by
the kernel hash-map implementation on behalf of the controller and is absent
from the sources.  `upsert(key)` marks a key as protected; it is idempotent and
fails with `CapacityExceeded` if the table is full and the key is new.  The
mark is the value 1, the capacity is `max_entries`. -/
def upsert (m : HashMap) (key : Nat) : Except RegistryError HashMap :=
  if key ∈ m.keys then
    Except.ok (m.map fun e => if e.1 = key then (e.1, 1) else e)
  else if max_entries ≤ m.length then
    Except.error RegistryError.CapacityExceeded
  else
    Except.ok (m ++ [(key, 1)])

/-- Modelled from the spec: `remove(key)` unmarks a key; no-op if absent. -/
def remove (m : HashMap) (key : Nat) : HashMap :=
  m.filter fun e => e.1 != key

/-- Modelled from the spec: `contains(key)`, the membership test. -/
def contains (m : HashMap) (key : Nat) : Bool :=
  (m.lookup key).isSome

/-- A mutation requested by the controller. -/
inductive RegistryOp where
  /-- Request `upsert(key)`. -/
  | upsert (key : Nat)
  /-- Request `remove(key)`. -/
  | remove (key : Nat)
  deriving DecidableEq

/-- Table left by one request; a failed `upsert` leaves the table as it was. -/
def RegistryOp.apply (m : HashMap) : RegistryOp → HashMap
  | RegistryOp.upsert key =>
    match RedactVfsWrite.upsert m key with
    | Except.ok m1 => m1
    | Except.error _ => m
  | RegistryOp.remove key => RedactVfsWrite.remove m key

/-- Table left by a sequence of requests. -/
def run (ops : List RegistryOp) (m : HashMap) : HashMap :=
  ops.foldl RegistryOp.apply m

/-- A table with `n` entries, keys `0 .. n-1`. -/
def fullTable (n : Nat) : HashMap := (List.range n).map fun key => (key, 1)

/-! ## Arithmetic of `make_key` -/

theorem u32_of_lt {x : Nat} (h : x < 2 ^ 32) : u32 x = x := Nat.mod_eq_of_lt h

theorem u64_of_lt {x : Nat} (h : x < 2 ^ 64) : u64 x = x := Nat.mod_eq_of_lt h

/-- The widened device number shifted by 32 still fits in 64 bits. -/
theorem shifted_dev (dev : Nat) : u64 (u64 (u32 dev) <<< 32) = u32 dev * 2 ^ 32 := by
  have h : u32 dev < 2 ^ 32 := Nat.mod_lt _ (by norm_num)
  have h64 : u32 dev < 2 ^ 64 := lt_trans h (by norm_num)
  rw [u64_of_lt h64, Nat.shiftLeft_eq]
  apply u64_of_lt
  have : (2 : Nat) ^ 64 = 2 ^ 32 * 2 ^ 32 := by norm_num
  rw [this]
  exact Nat.mul_lt_mul_of_pos_right h (by norm_num)

/-- Closed form of `make_key` on any pair of naturals. -/
theorem make_key_eq (dev ino : Nat) :
    make_key dev ino = (u32 dev * 2 ^ 32) ^^^ u64 ino := by
  unfold make_key
  rw [shifted_dev]

/-- Closed form of `make_key` on values of the parameter types. -/
theorem make_key_of_lt {dev ino : Nat} (hd : dev < 2 ^ 32) (hi : ino < 2 ^ 64) :
    make_key dev ino = (dev * 2 ^ 32) ^^^ ino := by
  rw [make_key_eq, u32_of_lt hd, u64_of_lt hi]

/-- High half of a mixed value: the device bits xor the high inode bits. -/
theorem mix_shiftRight (d i : Nat) : ((d * 2 ^ 32) ^^^ i) >>> 32 = d ^^^ (i >>> 32) := by
  apply Nat.eq_of_testBit_eq
  intro j
  rw [Nat.mul_comm d]
  simp only [Nat.testBit_shiftRight, Nat.testBit_xor, Nat.testBit_mul_pow_two]
  have h1 : 32 ≤ 32 + j := Nat.le_add_right 32 j
  have h2 : 32 + j - 32 = j := by omega
  simp [h1, h2]

/-- Low half of a mixed value: the low inode bits. -/
theorem mix_mod (d i : Nat) : ((d * 2 ^ 32) ^^^ i) % 2 ^ 32 = i % 2 ^ 32 := by
  apply Nat.eq_of_testBit_eq
  intro j
  rw [Nat.mul_comm d]
  simp only [Nat.testBit_mod_two_pow, Nat.testBit_xor, Nat.testBit_mul_pow_two]
  by_cases h : j < 32
  · have : ¬ 32 ≤ j := by omega
    simp [h, this]
  · simp [h]

theorem make_key_lt (dev ino : Nat) : make_key dev ino < 2 ^ 64 := by
  unfold make_key
  exact Nat.xor_lt_two_pow (Nat.mod_lt _ (by norm_num)) (Nat.mod_lt _ (by norm_num))

/-- The device is recovered from the key of an identity with a 32-bit inode number. -/
theorem make_key_shiftRight {d i : Nat} (hd : d < 2 ^ 32) (hi : i < 2 ^ 32) :
    make_key d i >>> 32 = d := by
  rw [make_key_of_lt hd (lt_trans hi (by norm_num)), mix_shiftRight,
    Nat.shiftRight_eq_div_pow, Nat.div_eq_of_lt hi, Nat.xor_zero]

/-- The inode is recovered from the key of an identity with a 32-bit inode number. -/
theorem make_key_mod {d i : Nat} (hd : d < 2 ^ 32) (hi : i < 2 ^ 32) :
    make_key d i % 2 ^ 32 = i := by
  rw [make_key_of_lt hd (lt_trans hi (by norm_num)), mix_mod, Nat.mod_eq_of_lt hi]

/-- Keys of identities with 32-bit inode numbers determine the identity. -/
theorem make_key_inj32 {d1 d2 i1 i2 : Nat} (hd1 : d1 < 2 ^ 32) (hd2 : d2 < 2 ^ 32)
    (hi1 : i1 < 2 ^ 32) (hi2 : i2 < 2 ^ 32) (h : make_key d1 i1 = make_key d2 i2) :
    d1 = d2 ∧ i1 = i2 := by
  constructor
  · rw [← make_key_shiftRight hd1 hi1, ← make_key_shiftRight hd2 hi2, h]
  · rw [← make_key_mod hd1 hi1, ← make_key_mod hd2 hi2, h]

/-- With the device fixed, the key determines the inode number. -/
theorem make_key_inj_ino {dev i1 i2 : Nat} (hi1 : i1 < 2 ^ 64) (hi2 : i2 < 2 ^ 64)
    (h : make_key dev i1 = make_key dev i2) : i1 = i2 := by
  rw [make_key_eq, make_key_eq, u64_of_lt hi1, u64_of_lt hi2] at h
  exact Nat.xor_right_injective h

/-- With the inode number fixed, the key determines the device. -/
theorem make_key_inj_dev {d1 d2 ino : Nat} (hd1 : d1 < 2 ^ 32) (hd2 : d2 < 2 ^ 32)
    (h : make_key d1 ino = make_key d2 ino) : d1 = d2 := by
  rw [make_key_eq, make_key_eq, u32_of_lt hd1, u32_of_lt hd2] at h
  have h2 : d1 * 2 ^ 32 = d2 * 2 ^ 32 := Nat.xor_left_injective h
  exact Nat.eq_of_mul_eq_mul_right (by norm_num) h2

/-! ## The probe as a function of the key it looks up -/

theorem HashMap.lookup_eq_none_iff (m : HashMap) (key : Nat) :
    m.lookup key = none ↔ key ∉ m.keys := by
  simp only [HashMap.lookup, HashMap.keys, Option.map_eq_none', List.find?_eq_none,
    List.mem_map, not_exists, not_and, beq_iff_eq]

theorem HashMap.lookup_isSome_iff (m : HashMap) (key : Nat) :
    (m.lookup key).isSome = true ↔ key ∈ m.keys := by
  rw [← not_iff_not, ← HashMap.lookup_eq_none_iff]
  cases m.lookup key <;> simp

/-- Not-found path: one lookup is logged and nothing else happens. -/
theorem kprobe_miss (k : Kernel) (s : BpfState) (ctx : pt_regs)
    (h : probe_key k ctx ∉ s.log_map.keys) :
    kprobe__vfs_write k s ctx =
      (0, ⟨s.log_map, s.calls ++ [HelperCall.map_lookup_elem (probe_key k ctx)]⟩) := by
  have hl := (HashMap.lookup_eq_none_iff s.log_map (probe_key k ctx)).2 h
  simp only [probe_key, read_dev, read_ino, read_inode] at hl
  simp only [kprobe__vfs_write, bpf_map_lookup_elem, hl, probe_key, read_dev, read_ino,
    read_inode]

/-- Found path: one lookup, then one trace record. -/
theorem kprobe_hit (k : Kernel) (s : BpfState) (ctx : pt_regs)
    (h : probe_key k ctx ∈ s.log_map.keys) :
    kprobe__vfs_write k s ctx =
      (0, ⟨s.log_map, s.calls ++ [HelperCall.map_lookup_elem (probe_key k ctx)] ++ [record]⟩) := by
  have hl := (HashMap.lookup_isSome_iff s.log_map (probe_key k ctx)).2 h
  obtain ⟨v, hv⟩ := Option.isSome_iff_exists.1 hl
  simp only [probe_key, read_dev, read_ino, read_inode] at hv
  simp only [kprobe__vfs_write, bpf_map_lookup_elem, hv, probe_key, read_dev, read_ino,
    read_inode, bpf_trace_printk, record]

theorem callsOf_miss (k : Kernel) (s : BpfState) (ctx : pt_regs)
    (h : probe_key k ctx ∉ s.log_map.keys) :
    callsOf k s ctx = [HelperCall.map_lookup_elem (probe_key k ctx)] := by
  simp [callsOf, kprobe_miss k s ctx h]

theorem callsOf_hit (k : Kernel) (s : BpfState) (ctx : pt_regs)
    (h : probe_key k ctx ∈ s.log_map.keys) :
    callsOf k s ctx = [HelperCall.map_lookup_elem (probe_key k ctx), record] := by
  simp [callsOf, kprobe_hit k s ctx h]

theorem emitted_miss (k : Kernel) (s : BpfState) (ctx : pt_regs)
    (h : probe_key k ctx ∉ s.log_map.keys) : emitted k s ctx = [] := by
  simp [emitted, callsOf_miss k s ctx h, HelperCall.isTrace]

theorem emitted_hit (k : Kernel) (s : BpfState) (ctx : pt_regs)
    (h : probe_key k ctx ∈ s.log_map.keys) : emitted k s ctx = [record] := by
  simp [emitted, callsOf_hit k s ctx h, HelperCall.isTrace, HelperCall.isLookup, record]

theorem lookups_eq (k : Kernel) (s : BpfState) (ctx : pt_regs) :
    lookups k s ctx = [HelperCall.map_lookup_elem (probe_key k ctx)] := by
  by_cases h : probe_key k ctx ∈ s.log_map.keys
  · simp [lookups, callsOf_hit k s ctx h, HelperCall.isLookup, record]
  · simp [lookups, callsOf_miss k s ctx h, HelperCall.isLookup]

/-- A trace record is emitted exactly when the looked-up key is in the map. -/
theorem emitted_ne_nil_iff (k : Kernel) (s : BpfState) (ctx : pt_regs) :
    emitted k s ctx ≠ [] ↔ probe_key k ctx ∈ s.log_map.keys := by
  by_cases h : probe_key k ctx ∈ s.log_map.keys
  · simp [emitted_hit k s ctx h, h]
  · simp [emitted_miss k s ctx h, h]

/-- When every read succeeds the probe looks up the key of the file's identity. -/
theorem probe_key_of_identity {k : Kernel} {ctx : pt_regs} {dev ino : Nat}
    (h : k.identity (PT_REGS_PARM1 ctx) dev ino) : probe_key k ctx = make_key dev ino := by
  obtain ⟨inode, sb, h1, hi, h2, hs, h3, h4⟩ := h
  have e1 : read_inode k ctx = inode := by
    simp only [read_inode, bpf_core_read, h1]
    exact Nat.mod_eq_of_lt hi
  have e0 : read_sb k ctx = sb := by
    simp only [read_sb, e1, bpf_core_read, h2]
    exact Nat.mod_eq_of_lt hs
  have e2 : read_dev k ctx = u32 dev := by
    have : read_dev k ctx = bpf_core_read k.s_dev 32 (read_sb k ctx) := rfl
    rw [this, e0]
    simp only [bpf_core_read, h3, u32]
  have e3 : read_ino k ctx = u64 ino := by
    simp only [read_ino, e1, bpf_core_read, h4, u64]
  rw [probe_key, e2, e3, make_key_eq, make_key_eq]
  simp [u32, u64]

/-! ## The claims about the probe -/

/-- C1: for every registry state and every written file (dev, ino), one
invocation of the probe emits exactly one trace record if `make_key dev ino` is
present in `log_map` and none if it is absent, and performs a single lookup
(of that key) either way. -/
theorem probe_emits_iff_present (k : Kernel) (s : BpfState) (ctx : pt_regs) (dev ino : Nat)
    (hid : k.identity (PT_REGS_PARM1 ctx) dev ino) :
    (make_key dev ino ∈ s.log_map.keys → (emitted k s ctx).length = 1) ∧
    (make_key dev ino ∉ s.log_map.keys → (emitted k s ctx).length = 0) ∧
    lookups k s ctx = [HelperCall.map_lookup_elem (make_key dev ino)] ∧
    (lookups k s ctx).length = 1 := by
  have hk := probe_key_of_identity hid
  refine ⟨fun h => ?_, fun h => ?_, ?_, ?_⟩
  · rw [emitted_hit k s ctx (hk ▸ h)]; rfl
  · rw [emitted_miss k s ctx (hk ▸ h)]; rfl
  · rw [lookups_eq, hk]
  · rw [lookups_eq]; rfl

/-- C1 on the scenarios of the specification: with `log_map` holding only
`make_key 8 1001`, a write to (8, 1001) emits one record and a write to
(8, 1002) emits none; with `log_map` empty, a write to (8, 1001) emits none. -/
theorem probe_emits_iff_present_witness :
    (emitted (Kernel.single 4096 8 1001) ⟨[(make_key 8 1001, 1)], []⟩ ⟨4096⟩).length = 1 ∧
    (emitted (Kernel.single 4096 8 1002) ⟨[(make_key 8 1001, 1)], []⟩ ⟨4096⟩).length = 0 ∧
    (emitted (Kernel.single 4096 8 1001) ⟨[], []⟩ ⟨4096⟩).length = 0 :=
  ⟨(probe_emits_iff_present (Kernel.single 4096 8 1001) ⟨[(make_key 8 1001, 1)], []⟩ ⟨4096⟩
      8 1001 ⟨4097, 4098, rfl, by decide, rfl, by decide, rfl, rfl⟩).1 (by decide),
   (probe_emits_iff_present (Kernel.single 4096 8 1002) ⟨[(make_key 8 1001, 1)], []⟩ ⟨4096⟩
      8 1002 ⟨4097, 4098, rfl, by decide, rfl, by decide, rfl, rfl⟩).2.1 (by decide),
   (probe_emits_iff_present (Kernel.single 4096 8 1001) ⟨[], []⟩ ⟨4096⟩
      8 1001 ⟨4097, 4098, rfl, by decide, rfl, by decide, rfl, rfl⟩).2.1 (by decide)⟩

/-- C2 as stated fails: with S = {(9, 5)} and `log_map` holding exactly the key
of (9, 5), a write to the file (dev 8, inode 2^32 + 5) emits a trace record
although (8, 2^32 + 5) is not in S, because both identities have the same key. -/
theorem trace_for_colliding_identity :
    (∀ key, key ∈ HashMap.keys [(make_key 9 5, 1)] ↔
        ∃ p ∈ [((9 : Nat), (5 : Nat))], make_key p.1 p.2 = key) ∧
    (8 : Nat) < 2 ^ 32 ∧ (2 : Nat) ^ 32 + 5 < 2 ^ 64 ∧
    (Kernel.single 4096 8 (2 ^ 32 + 5)).identity (PT_REGS_PARM1 ⟨4096⟩) 8 (2 ^ 32 + 5) ∧
    emitted (Kernel.single 4096 8 (2 ^ 32 + 5)) ⟨[(make_key 9 5, 1)], []⟩ ⟨4096⟩ ≠ [] ∧
    ((8 : Nat), (2 : Nat) ^ 32 + 5) ∉ [((9 : Nat), (5 : Nat))] := by
  refine ⟨?_, by decide, by decide, ⟨4097, 4098, rfl, by decide, rfl, by decide, rfl, rfl⟩,
    by decide, by decide⟩
  intro key
  simp [HashMap.keys, eq_comm]

/-- C2 (amended): if the keys in `log_map` are exactly the keys of the
identities in S and a write to (dev, ino) emits a trace record, then some
identity in S has the key of (dev, ino); and if all inode numbers involved are
below 2^32, then (dev, ino) itself is in S. -/
theorem trace_only_for_key_matches (S : List (Nat × Nat)) (k : Kernel) (s : BpfState)
    (ctx : pt_regs) (dev ino : Nat)
    (hS : ∀ key, key ∈ s.log_map.keys ↔ ∃ p ∈ S, make_key p.1 p.2 = key)
    (hdev : dev < 2 ^ 32)
    (hid : k.identity (PT_REGS_PARM1 ctx) dev ino)
    (hemit : emitted k s ctx ≠ []) :
    (∃ p ∈ S, make_key p.1 p.2 = make_key dev ino) ∧
    ((∀ p ∈ S, p.1 < 2 ^ 32 ∧ p.2 < 2 ^ 32) → ino < 2 ^ 32 → (dev, ino) ∈ S) := by
  have hmem : make_key dev ino ∈ s.log_map.keys := by
    rw [← probe_key_of_identity hid]
    exact (emitted_ne_nil_iff k s ctx).1 hemit
  have hex := (hS _).1 hmem
  refine ⟨hex, fun hb hi => ?_⟩
  obtain ⟨p, hp, hkey⟩ := hex
  obtain ⟨h1, h2⟩ := make_key_inj32 (hb p hp).1 hdev (hb p hp).2 hi hkey
  have : p = (dev, ino) := Prod.ext h1 h2
  exact this ▸ hp

/-- C2 (amended) on a concrete run: S = {(8, 1001)}, a write to (8, 1001). -/
theorem trace_only_for_key_matches_witness :
    (∃ p ∈ [((8 : Nat), (1001 : Nat))], make_key p.1 p.2 = make_key 8 1001) ∧
    ((∀ p ∈ [((8 : Nat), (1001 : Nat))], p.1 < 2 ^ 32 ∧ p.2 < 2 ^ 32) → 1001 < 2 ^ 32 →
      ((8 : Nat), (1001 : Nat)) ∈ [((8 : Nat), (1001 : Nat))]) :=
  trace_only_for_key_matches [(8, 1001)] (Kernel.single 4096 8 1001)
    ⟨[(make_key 8 1001, 1)], []⟩ ⟨4096⟩ 8 1001
    (by intro key; simp [HashMap.keys, eq_comm]) (by decide)
    ⟨4097, 4098, rfl, by decide, rfl, by decide, rfl, rfl⟩ (by decide)

/-- C3: the probe returns 0 for every kernel, every state of the registry and
every context, on the found and on the not-found path alike. -/
theorem always_returns_zero (k : Kernel) (s : BpfState) (ctx : pt_regs) :
    (kprobe__vfs_write k s ctx).1 = 0 := by
  by_cases h : probe_key k ctx ∈ s.log_map.keys
  · rw [kprobe_hit k s ctx h]
  · rw [kprobe_miss k s ctx h]

/-- C4 as stated fails: with every read faulting on a NULL file handle and
`log_map` holding the key 0, the probe emits a trace record. -/
theorem unavailable_identity_can_match :
    IdentityUnavailable Kernel.faulting ⟨0⟩ ∧
    emitted Kernel.faulting ⟨[(0, 1)], []⟩ ⟨0⟩ = [record] ∧
    emitted Kernel.faulting ⟨[(0, 1)], []⟩ ⟨0⟩ ≠ [] :=
  ⟨Or.inl rfl, by decide, by decide⟩

/-- C4 (amended): when the identity is unavailable the probe does not notice.
Each failed read leaves 0 as the value read, and the probe performs its one
lookup with the key built from the values so obtained (key 0 when both the
device read and the inode-number read fail).  It returns 0 for every registry
state; it emits no trace record when that key is not in `log_map`, and it emits
the trace record when that key is in `log_map`. -/
theorem unavailable_identity_zero_filled (k : Kernel) (s : BpfState) (ctx : pt_regs)
    (h : IdentityUnavailable k ctx) :
    (kprobe__vfs_write k s ctx).1 = 0 ∧
    (read_inode k ctx = 0 ∨ read_sb k ctx = 0 ∨ read_dev k ctx = 0 ∨ read_ino k ctx = 0) ∧
    (make_key (read_dev k ctx) (read_ino k ctx) ∉ s.log_map.keys → emitted k s ctx = []) ∧
    (k.s_dev (read_sb k ctx) = none → k.i_ino (read_inode k ctx) = none →
      make_key (read_dev k ctx) (read_ino k ctx) = 0) ∧
    lookups k s ctx =
      [HelperCall.map_lookup_elem (make_key (read_dev k ctx) (read_ino k ctx))] ∧
    (make_key (read_dev k ctx) (read_ino k ctx) ∈ s.log_map.keys →
      emitted k s ctx = [HelperCall.trace_printk msg sizeof_msg []]) ∧
    (k.f_inode (PT_REGS_PARM1 ctx) = none → read_inode k ctx = 0) ∧
    (k.i_sb (read_inode k ctx) = none → read_sb k ctx = 0) ∧
    (k.s_dev (read_sb k ctx) = none → read_dev k ctx = 0) ∧
    (k.i_ino (read_inode k ctx) = none → read_ino k ctx = 0) ∧
    (k.s_dev (read_sb k ctx) = none → k.i_ino (read_inode k ctx) = none →
      lookups k s ctx = [HelperCall.map_lookup_elem 0] ∧
      (0 ∈ s.log_map.keys → emitted k s ctx = [HelperCall.trace_printk msg sizeof_msg []]) ∧
      (0 ∉ s.log_map.keys → emitted k s ctx = [])) := by
  have r1 : k.f_inode (PT_REGS_PARM1 ctx) = none → read_inode k ctx = 0 := fun e => by
    simp only [read_inode, bpf_core_read, e]
  have r2 : k.i_sb (read_inode k ctx) = none → read_sb k ctx = 0 := fun e => by
    simp only [read_sb, bpf_core_read, e]
  have r3 : k.s_dev (read_sb k ctx) = none → read_dev k ctx = 0 := fun e => by
    have : read_dev k ctx = bpf_core_read k.s_dev 32 (read_sb k ctx) := rfl
    rw [this]; simp only [bpf_core_read, e]
  have r4 : k.i_ino (read_inode k ctx) = none → read_ino k ctx = 0 := fun e => by
    simp only [read_ino, bpf_core_read, e]
  have hkey : k.s_dev (read_sb k ctx) = none → k.i_ino (read_inode k ctx) = none →
      probe_key k ctx = 0 := fun e3 e4 => by
    rw [probe_key, r3 e3, r4 e4]; decide
  refine ⟨?_, ?_, fun hk => emitted_miss k s ctx hk, hkey, lookups_eq k s ctx,
    fun hk => emitted_hit k s ctx hk, r1, r2, r3, r4, fun e3 e4 => ⟨?_, ?_, ?_⟩⟩
  · by_cases hm : probe_key k ctx ∈ s.log_map.keys
    · rw [kprobe_hit k s ctx hm]
    · rw [kprobe_miss k s ctx hm]
  · rcases h with h | h | h | h
    · exact Or.inl (r1 h)
    · exact Or.inr (Or.inl (r2 h))
    · exact Or.inr (Or.inr (Or.inl (r3 h)))
    · exact Or.inr (Or.inr (Or.inr (r4 h)))
  · rw [lookups_eq, hkey e3 e4]
  · intro h0
    exact emitted_hit k s ctx ((hkey e3 e4).symm ▸ h0)
  · intro h0
    exact emitted_miss k s ctx ((hkey e3 e4).symm ▸ h0)

/-- C4 (amended) on concrete runs with every read faulting on a NULL handle:
the probe looks up key 0; with `log_map` holding key 5 only it emits nothing,
with `log_map` holding key 0 it emits the trace record; it returns 0. -/
theorem unavailable_identity_zero_filled_witness :
    (kprobe__vfs_write Kernel.faulting ⟨[(5, 1)], []⟩ ⟨0⟩).1 = 0 ∧
    emitted Kernel.faulting ⟨[(5, 1)], []⟩ ⟨0⟩ = [] ∧
    lookups Kernel.faulting ⟨[(5, 1)], []⟩ ⟨0⟩ = [HelperCall.map_lookup_elem 0] ∧
    lookups Kernel.faulting ⟨[(0, 1)], []⟩ ⟨0⟩ = [HelperCall.map_lookup_elem 0] ∧
    emitted Kernel.faulting ⟨[(0, 1)], []⟩ ⟨0⟩ =
      [HelperCall.trace_printk msg sizeof_msg []] :=
  have h := unavailable_identity_zero_filled Kernel.faulting ⟨[(5, 1)], []⟩ ⟨0⟩ (Or.inl rfl)
  have h0 := unavailable_identity_zero_filled Kernel.faulting ⟨[(0, 1)], []⟩ ⟨0⟩ (Or.inl rfl)
  ⟨h.1, h.2.2.1 (by decide), (h.2.2.2.2.2.2.2.2.2.2 rfl rfl).1,
    (h0.2.2.2.2.2.2.2.2.2.2 rfl rfl).1, (h0.2.2.2.2.2.2.2.2.2.2 rfl rfl).2.1 (by decide)⟩

/-- C5: for a 32-bit device number and a 64-bit inode number, `make_key` is
(dev * 2^32) xor ino with the product taken without reduction, the result is a
64-bit value whose high half is dev xor the high half of ino (no bit of dev is
lost), and equal inputs give equal keys. -/
theorem make_key_value (dev ino : Nat) (hdev : dev < 2 ^ 32) (hino : ino < 2 ^ 64) :
    make_key dev ino = (dev * 2 ^ 32) ^^^ ino ∧
    make_key dev ino < 2 ^ 64 ∧
    make_key dev ino >>> 32 = dev ^^^ (ino >>> 32) ∧
    (∀ dev1 ino1, dev1 = dev → ino1 = ino → make_key dev1 ino1 = make_key dev ino) := by
  refine ⟨make_key_of_lt hdev hino, make_key_lt dev ino, ?_, ?_⟩
  · rw [make_key_of_lt hdev hino, mix_shiftRight]
  · intro dev1 ino1 h1 h2
    rw [h1, h2]

/-- C5 at the largest device number and the largest inode number. -/
theorem make_key_value_witness :
    make_key (2 ^ 32 - 1) (2 ^ 64 - 1) = ((2 ^ 32 - 1) * 2 ^ 32) ^^^ (2 ^ 64 - 1) ∧
    make_key (2 ^ 32 - 1) (2 ^ 64 - 1) = 2 ^ 32 - 1 :=
  ⟨(make_key_value (2 ^ 32 - 1) (2 ^ 64 - 1) (by decide) (by decide)).1, by decide⟩

/-- C6: on device and inode numbers below 2^32, distinct identities have
distinct keys, the device is the key shifted right by 32 and the inode number
is the key modulo 2^32. -/
theorem make_key_no_collision_32 (d1 d2 i1 i2 : Nat) (hd1 : d1 < 2 ^ 32) (hd2 : d2 < 2 ^ 32)
    (hi1 : i1 < 2 ^ 32) (hi2 : i2 < 2 ^ 32) :
    ((d1, i1) ≠ (d2, i2) → make_key d1 i1 ≠ make_key d2 i2) ∧
    make_key d1 i1 >>> 32 = d1 ∧ make_key d1 i1 % 2 ^ 32 = i1 := by
  refine ⟨fun hne hkey => hne ?_, make_key_shiftRight hd1 hi1, make_key_mod hd1 hi1⟩
  obtain ⟨h1, h2⟩ := make_key_inj32 hd1 hd2 hi1 hi2 hkey
  rw [h1, h2]

/-- C6 at the identities (8, 1001) and (8, 1002). -/
theorem make_key_no_collision_32_witness :
    make_key 8 1001 ≠ make_key 8 1002 ∧ make_key 8 1001 >>> 32 = 8 ∧
    make_key 8 1001 % 2 ^ 32 = 1001 :=
  have h := make_key_no_collision_32 8 8 1001 1002 (by decide) (by decide) (by decide)
    (by decide)
  ⟨h.1 (by decide), h.2.1, h.2.2⟩

/-- C7: the probe leaves `log_map` as it found it, for every kernel, every
state and every context. -/
theorem registry_unchanged (k : Kernel) (s : BpfState) (ctx : pt_regs) :
    (kprobe__vfs_write k s ctx).2.log_map = s.log_map := by
  by_cases h : probe_key k ctx ∈ s.log_map.keys
  · rw [kprobe_hit k s ctx h]
  · rw [kprobe_miss k s ctx h]

/-- C8: any two invocations that match (the key the probe builds from the file
written is in `log_map`), whatever their kernel, device, inode and registry
contents, emit one and the same trace record: the fixed text
"eBPF intercept: protected file write" followed by a newline, 37 characters,
passed with its terminating NUL and size 38, without format arguments and
without a format directive. -/
theorem trace_message_static (k k1 : Kernel) (s s1 : BpfState) (ctx ctx1 : pt_regs)
    (h : probe_key k ctx ∈ s.log_map.keys) (h1 : probe_key k1 ctx1 ∈ s1.log_map.keys) :
    emitted k s ctx = emitted k1 s1 ctx1 ∧
    emitted k s ctx = [HelperCall.trace_printk
      ("eBPF intercept: protected file write\n".toList.map Char.toNat ++ [0]) 38 []] ∧
    emitted k1 s1 ctx1 = [HelperCall.trace_printk
      ("eBPF intercept: protected file write\n".toList.map Char.toNat ++ [0]) 38 []] ∧
    "eBPF intercept: protected file write\n".length = 37 ∧
    "eBPF intercept: protected file write\n".toList.getLast? = some (Char.ofNat 10) ∧
    Char.ofNat 37 ∉ "eBPF intercept: protected file write\n".toList := by
  have e := emitted_hit k s ctx h
  have e1 := emitted_hit k1 s1 ctx1 h1
  refine ⟨by rw [e, e1], ?_, ?_, by decide, by decide, by decide⟩
  · rw [e]
    decide
  · rw [e1]
    decide

/-- C8 on two matching writes to different files under different registries:
both runs emit the fixed 38-byte message, with no format arguments. -/
theorem trace_message_static_witness :
    emitted (Kernel.single 4096 8 1001) ⟨[(make_key 8 1001, 1)], []⟩ ⟨4096⟩ =
      emitted (Kernel.single 8192 9 77) ⟨[(5, 1), (make_key 9 77, 1)], []⟩ ⟨8192⟩ ∧
    emitted (Kernel.single 4096 8 1001) ⟨[(make_key 8 1001, 1)], []⟩ ⟨4096⟩ =
      [HelperCall.trace_printk
        ("eBPF intercept: protected file write\n".toList.map Char.toNat ++ [0]) 38 []] ∧
    emitted (Kernel.single 8192 9 77) ⟨[(5, 1), (make_key 9 77, 1)], []⟩ ⟨8192⟩ =
      [HelperCall.trace_printk
        ("eBPF intercept: protected file write\n".toList.map Char.toNat ++ [0]) 38 []] :=
  have h := trace_message_static (Kernel.single 4096 8 1001) (Kernel.single 8192 9 77)
    ⟨[(make_key 8 1001, 1)], []⟩ ⟨[(5, 1), (make_key 9 77, 1)], []⟩ ⟨4096⟩ ⟨8192⟩
    (by decide) (by decide)
  ⟨h.1, h.2.1, h.2.2.1⟩

/-- C10: `make_key` is injective in the inode number for a fixed device and in
the device for a fixed inode number, over the full widths; hence two distinct
identities with the same key differ in both components. -/
theorem make_key_injective_each (d1 d2 i1 i2 : Nat) (hd1 : d1 < 2 ^ 32) (hd2 : d2 < 2 ^ 32)
    (hi1 : i1 < 2 ^ 64) (hi2 : i2 < 2 ^ 64) :
    (i1 ≠ i2 → make_key d1 i1 ≠ make_key d1 i2) ∧
    (d1 ≠ d2 → make_key d1 i1 ≠ make_key d2 i1) ∧
    ((d1, i1) ≠ (d2, i2) → make_key d1 i1 = make_key d2 i2 → d1 ≠ d2 ∧ i1 ≠ i2) := by
  refine ⟨fun hne hkey => hne (make_key_inj_ino hi1 hi2 hkey),
    fun hne hkey => hne (make_key_inj_dev hd1 hd2 hkey), fun hne hkey => ⟨?_, ?_⟩⟩
  · intro hd
    subst hd
    exact hne (by rw [make_key_inj_ino hi1 hi2 hkey])
  · intro hi
    subst hi
    exact hne (by rw [make_key_inj_dev hd1 hd2 hkey])

/-- C10 at the colliding identities (0, 2^32) and (1, 0), which differ in
both components, and at pairs differing in one component only. -/
theorem make_key_injective_each_witness :
    make_key 0 (2 ^ 32) ≠ make_key 0 0 ∧ make_key 0 (2 ^ 32) ≠ make_key 1 (2 ^ 32) ∧
    (make_key 0 (2 ^ 32) = make_key 1 0 → (0 : Nat) ≠ 1 ∧ (2 : Nat) ^ 32 ≠ 0) :=
  have h := make_key_injective_each 0 1 (2 ^ 32) 0 (by decide) (by decide) (by decide)
    (by decide)
  ⟨h.1 (by decide), h.2.1 (by decide), h.2.2 (by decide)⟩

/-! ## The capacity of the registry -/

/-- Re-marking entries changes no key. -/
theorem keys_map_mark (m : HashMap) (key : Nat) :
    HashMap.keys (m.map fun e => if e.1 = key then (e.1, 1) else e) = m.keys := by
  simp only [HashMap.keys, List.map_map]
  apply List.map_congr_left
  intro e _
  by_cases h : e.1 = key <;> simp [h]

theorem upsert_of_mem {m : HashMap} {key : Nat} (h : key ∈ m.keys) :
    upsert m key = Except.ok (m.map fun e => if e.1 = key then (e.1, 1) else e) := by
  simp only [upsert, h, if_true]

theorem upsert_full_new {m : HashMap} {key : Nat} (h : key ∉ m.keys)
    (hfull : max_entries ≤ m.length) :
    upsert m key = Except.error RegistryError.CapacityExceeded := by
  simp only [upsert, h, hfull, if_true, if_false]

theorem upsert_room_new {m : HashMap} {key : Nat} (h : key ∉ m.keys)
    (hroom : ¬ max_entries ≤ m.length) : upsert m key = Except.ok (m ++ [(key, 1)]) := by
  simp only [upsert, h, hroom, if_false]

/-- No request takes a table within capacity beyond it. -/
theorem apply_length_le (m : HashMap) (op : RegistryOp) (h : m.length ≤ max_entries) :
    (op.apply m).length ≤ max_entries := by
  cases op with
  | upsert key =>
    by_cases hk : key ∈ m.keys
    · simp only [RegistryOp.apply, upsert_of_mem hk, List.length_map]
      exact h
    · by_cases hfull : max_entries ≤ m.length
      · simp only [RegistryOp.apply, upsert_full_new hk hfull]
        exact h
      · simp only [RegistryOp.apply, upsert_room_new hk hfull, List.length_append,
          List.length_singleton]
        omega
  | remove key =>
    exact le_trans (List.length_filter_le _ _) h

/-- No request introduces a duplicate key. -/
theorem apply_nodup (m : HashMap) (op : RegistryOp) (h : m.keys.Nodup) :
    (op.apply m).keys.Nodup := by
  cases op with
  | upsert key =>
    by_cases hk : key ∈ m.keys
    · simp only [RegistryOp.apply, upsert_of_mem hk, keys_map_mark]
      exact h
    · by_cases hfull : max_entries ≤ m.length
      · simp only [RegistryOp.apply, upsert_full_new hk hfull]
        exact h
      · simp only [RegistryOp.apply, upsert_room_new hk hfull, HashMap.keys, List.map_append,
          List.map_cons, List.map_nil]
        refine List.Nodup.append h (List.nodup_singleton key) ?_
        intro a ha hb
        rw [List.mem_singleton] at hb
        exact hk (hb ▸ ha)
  | remove key =>
    exact List.Nodup.sublist (List.Sublist.map Prod.fst (List.filter_sublist m)) h

theorem run_length_le (ops : List RegistryOp) (m : HashMap) (h : m.length ≤ max_entries) :
    (run ops m).length ≤ max_entries := by
  induction ops generalizing m with
  | nil => exact h
  | cons op ops ih => exact ih (op.apply m) (apply_length_le m op h)

theorem run_nodup (ops : List RegistryOp) (m : HashMap) (h : m.keys.Nodup) :
    (run ops m).keys.Nodup := by
  induction ops generalizing m with
  | nil => exact h
  | cons op ops ih => exact ih (op.apply m) (apply_nodup m op h)

/-- C9: `log_map` is declared with 128 entries; on a table holding 128
entries an `upsert` of a new key fails with `CapacityExceeded` and leaves the
table as it was, an `upsert` of a key already present succeeds without
changing the set of keys, and no sequence of requests, from that table or from
the empty one, makes the table hold more than 128 entries. -/
theorem capacity_boundary (m : HashMap) (key : Nat) (ops : List RegistryOp)
    (hfull : m.length = max_entries) :
    max_entries = 128 ∧
    (key ∉ m.keys → upsert m key = Except.error RegistryError.CapacityExceeded ∧
      RegistryOp.apply m (RegistryOp.upsert key) = m) ∧
    (key ∈ m.keys → ∃ m1, upsert m key = Except.ok m1 ∧ m1.keys = m.keys ∧
      m1.length = m.length) ∧
    (run ops m).length ≤ 128 ∧ (run ops []).length ≤ 128 ∧ (run ops []).keys.Nodup := by
  refine ⟨rfl, fun hk => ?_, fun hk => ?_, ?_, ?_, ?_⟩
  · have e := upsert_full_new hk (le_of_eq hfull.symm)
    exact ⟨e, by simp only [RegistryOp.apply, e]⟩
  · exact ⟨_, upsert_of_mem hk, keys_map_mark m key, List.length_map _ _⟩
  · exact run_length_le ops m (le_of_eq hfull)
  · exact run_length_le ops [] (Nat.zero_le _)
  · exact run_nodup ops [] List.nodup_nil

theorem fullTable_length (n : Nat) : (fullTable n).length = n := by
  simp [fullTable]

theorem fullTable_keys (n : Nat) : (fullTable n).keys = List.range n := by
  simp only [fullTable, HashMap.keys, List.map_map]
  exact List.map_id _

/-- C9 on the table with keys 0 .. 127: key 128 is refused and the table is
left as it was, key 5 is accepted, and 129 upserts of distinct keys from the
empty table leave at most 128 entries. -/
theorem capacity_boundary_witness :
    upsert (fullTable 128) 128 = Except.error RegistryError.CapacityExceeded ∧
    RegistryOp.apply (fullTable 128) (RegistryOp.upsert 128) = fullTable 128 ∧
    (∃ m1, upsert (fullTable 128) 5 = Except.ok m1 ∧ m1.keys = (fullTable 128).keys ∧
      m1.length = (fullTable 128).length) ∧
    (run ((List.range 129).map RegistryOp.upsert) []).length ≤ 128 :=
  have h := capacity_boundary (fullTable 128) 128 ((List.range 129).map RegistryOp.upsert)
    (fullTable_length 128)
  have h5 := capacity_boundary (fullTable 128) 5 [] (fullTable_length 128)
  ⟨(h.2.1 (by rw [fullTable_keys]; simp)).1, (h.2.1 (by rw [fullTable_keys]; simp)).2,
    h5.2.2.1 (by rw [fullTable_keys]; simp), h.2.2.2.2.1⟩

end RedactVfsWrite
